import Mathlib

/-
Verification of the AURA GPU Memory Attribution Engine.

Shallow embedding of the attribution pipeline from
src/gpu-inference-exporter/enhanced_gpu_inference.py (ContainerProfile,
EnhancedGPUInference), the inference-active flag computations from
src/aura-simple/mega_exporter.py and src/unified-exporter/unified_exporter.py,
and the InferenceDetector state machine from
src/ollama-exporter/enhanced_ollama_exporter.py.

Memory quantities and timestamps are rationals (exact arithmetic standing in
for Python floats); bounded deques are lists with explicit truncation.
-/

namespace AURA

/-- HISTORY_SIZE configuration constant (default 30). -/
def HISTORY_SIZE : Nat := 30

/-- Whether `needle` matches the leading characters of `hay`. -/
def chStartsWith : List Char → List Char → Bool
  | [], _ => true
  | _ :: _, [] => false
  | n :: ns, h :: hs => n == h && chStartsWith ns hs

/-- Whether `needle` occurs contiguously inside the character list. -/
def chOccurs (needle : List Char) : List Char → Bool
  | [] => chStartsWith needle []
  | h :: hs => chStartsWith needle (h :: hs) || chOccurs needle hs

/-- ASCII lower-casing of one character. -/
def lowerChar (c : Char) : Char :=
  if 'A' ≤ c ∧ c ≤ 'Z' then Char.ofNat (c.toNat + 32) else c

/-- Python substring test `needle in hay`. -/
def pyContains (hay needle : String) : Bool :=
  chOccurs needle.data hay.data

/-- Python str.lower() on ASCII names. -/
def pyLower (s : String) : String :=
  String.mk (s.data.map lowerChar)

/-- The fixed vocabulary of inference-workload name indicators. -/
def llm_indicators : List String :=
  ["ollama", "llama", "gpt", "llm", "ai", "ml", "model", "inference"]

/-- ContainerProfile._detect_llm_container: case-insensitive substring match
against the fixed vocabulary. -/
def detect_llm_container (name : String) : Bool :=
  llm_indicators.any (fun ind => pyContains (pyLower name) ind)

/-- One entry of the gpu_history deque of a container profile. -/
structure Observation where
  timestamp : ℚ
  visible : Bool
  memory : ℚ
deriving DecidableEq

/-- ContainerProfile: per-container rolling GPU behaviour profile. -/
structure ContainerProfile where
  container_id : String
  container_name : String
  gpu_history : List Observation
  last_seen_with_gpu : Option ℚ
  typical_memory : ℚ
  is_llm : Bool
deriving DecidableEq

/-- ContainerProfile.__init__: fresh profile for a newly sighted container. -/
def ContainerProfile.mk0 (cid name : String) : ContainerProfile :=
  ⟨cid, name, [], none, 0, detect_llm_container name⟩

/-- Append to a deque with maxlen `bound`: oldest entries are evicted once the
length exceeds the bound. -/
def boundedAppend {α : Type} (bound : Nat) (h : List α) (x : α) : List α :=
  let h2 := h ++ [x]
  if bound < h2.length then h2.drop (h2.length - bound) else h2

/-- Memory values of history entries flagged visible with nonzero memory. -/
def visibleMemories (hist : List Observation) : List ℚ :=
  (hist.filter (fun o => o.visible && decide (0 < o.memory))).map (fun o => o.memory)

/-- ContainerProfile.update: append the new observation, refresh
last_seen_with_gpu on visibility, and recompute typical_memory as the mean of
the visible-with-nonzero-memory history entries once the history holds more
than 5 entries and at least one such entry exists. -/
def ContainerProfile.update (p : ContainerProfile) (now : ℚ) (has_visible_gpu : Bool)
    (memory_bytes : ℚ) : ContainerProfile :=
  let hist := boundedAppend HISTORY_SIZE p.gpu_history ⟨now, has_visible_gpu, memory_bytes⟩
  let last := if has_visible_gpu then some now else p.last_seen_with_gpu
  let typical :=
    if 5 < hist.length then
      let vm := visibleMemories hist
      if vm.length ≠ 0 then vm.sum / (vm.length : ℚ) else p.typical_memory
    else p.typical_memory
  { p with gpu_history := hist, last_seen_with_gpu := last, typical_memory := typical }

/-- The recency contribution of get_gpu_likelihood_score: up to 0.3, decaying
linearly over the 300-second window since the last visible-with-GPU
observation; 0 when never seen. -/
def recencyScore (last : Option ℚ) (now : ℚ) : ℚ :=
  match last with
  | none => 0
  | some t =>
    if t = 0 then 0
    else if now - t < 300 then 3/10 * (1 - (now - t) / 300) else 0

/-- ContainerProfile.get_gpu_likelihood_score: 0.5 for inference-named
containers, plus the recency contribution, plus 0.2 x visible fraction once
the history exceeds 10 entries; capped at 1. The `t = 0` test in the recency
part mirrors Python truthiness of a 0.0 float timestamp. -/
def ContainerProfile.get_gpu_likelihood_score (p : ContainerProfile) (now : ℚ) : ℚ :=
  let s1 : ℚ := if p.is_llm then 1/2 else 0
  let s2 : ℚ := recencyScore p.last_seen_with_gpu now
  let s3 : ℚ :=
    if 10 < p.gpu_history.length then
      1/5 * (((p.gpu_history.filter (fun o => o.visible)).length : ℚ) /
        (p.gpu_history.length : ℚ))
    else 0
  min (s1 + s2 + s3) 1

/-- The weight part of EnhancedGPUInference.get_container_weight: base 1.0,
doubled for inference-named containers, times (1 + likelihood score). -/
def containerWeight (p : ContainerProfile) (now : ℚ) : ℚ :=
  let base : ℚ := if p.is_llm then 1 * 2 else 1
  base * (1 + p.get_gpu_likelihood_score now)

/-- Per-device unknown memory: max(0, total_used - known_used). -/
def unknownMemory (total_used known_used : ℚ) : ℚ :=
  max 0 (total_used - known_used)

/-- Inference-active flag of enhanced_gpu_inference.py and
gpu_inference_exporter.py: set iff any unknown memory at all. -/
def inferenceActiveEnhanced (unknown : ℚ) : Bool :=
  decide (0 < unknown)

/-- Inference-active flag of mega_exporter.py and unified_exporter.py: set iff
unknown memory exceeds 100 MiB. -/
def inferenceActiveThreshold (unknown : ℚ) : Bool :=
  decide (100 * 1024 * 1024 < unknown)

/-- A running container with GPU access, as listed by the Candidate Resolver. -/
structure Container where
  id : String
  name : String
deriving DecidableEq

/-- The Profile Store: container_profiles, an insertion-ordered map from
container id to profile. -/
abbrev ProfileStore : Type := List (String × ContainerProfile)

/-- Dictionary lookup container_profiles.get(cid). -/
def storeFind (s : ProfileStore) (cid : String) : Option ContainerProfile :=
  (List.find? (fun e => e.1 == cid) s).map (fun e => e.2)

/-- The guarded mutation `if cid in container_profiles: profiles[cid].update(...)`:
updates the profile when present, otherwise leaves the store unchanged. -/
def updateProfileIfPresent (s : ProfileStore) (cid : String) (now : ℚ) (vis : Bool)
    (mem : ℚ) : ProfileStore :=
  List.map (fun e => if e.1 == cid then (e.1, ContainerProfile.update e.2 now vis mem) else e) s

/-- EnhancedGPUInference.get_container_weight: look up the profile of the container,
creating one on first sighting, and return its weight with the new store. -/
def get_container_weight (s : ProfileStore) (c : Container) (now : ℚ) :
    ℚ × ProfileStore :=
  match storeFind s c.id with
  | some p => (containerWeight p now, s)
  | none =>
    let p := ContainerProfile.mk0 c.id c.name
    (containerWeight p now, s ++ [(c.id, p)])

/-- The weight-gathering loop of distribute_unknown_memory: weights in
iteration order together with the store after lazy profile creation. -/
def weighContainers (s : ProfileStore) (cs : List Container) (now : ℚ) :
    ProfileStore × List ℚ :=
  List.foldl (fun acc c =>
    let r := get_container_weight acc.1 c now
    (r.2, acc.2 ++ [r.1])) (s, []) cs

/-- Weights produced by distribute_unknown_memory for the candidate list. -/
def distribute_weights (s : ProfileStore) (cs : List Container) (now : ℚ) : List ℚ :=
  (weighContainers s cs now).2

/-- Per-candidate allocations of distribute_unknown_memory: on the early-out
(no candidates or no unknown memory) nothing is allocated; otherwise each
candidate receives unknown x weight / totalWeight, guarded by totalWeight > 0. -/
def distribute_alloc (s : ProfileStore) (unknown : ℚ) (cs : List Container)
    (now : ℚ) : List ℚ :=
  if cs = [] ∨ unknown ≤ 0 then []
  else
    let ws := distribute_weights s cs now
    List.map (fun w => if 0 < ws.sum then unknown * (w / ws.sum) else 0) ws

/-- Profile-store effect of distribute_unknown_memory. -/
def distribute_store (s : ProfileStore) (unknown : ℚ) (cs : List Container)
    (now : ℚ) : ProfileStore :=
  if cs = [] ∨ unknown ≤ 0 then s else (weighContainers s cs now).1

/-- One process reported by the driver query, after PID-to-container mapping. -/
structure KnownProc where
  pid : Nat
  memory_bytes : ℚ
  container : Option Container
deriving DecidableEq

/-- The known-process loop of calculate_inference: per mapped process, record
the container id as directly attributed and update its profile when present. -/
def processKnownPhase (s : ProfileStore) (now : ℚ)
    (known : List (Nat × List KnownProc)) : ProfileStore × List String :=
  List.foldl (fun acc g =>
    List.foldl (fun acc2 proc =>
      match proc.container with
      | some c => (updateProfileIfPresent acc2.1 c.id now true proc.memory_bytes,
                   acc2.2 ++ [c.id])
      | none => acc2) acc g.2) (s, []) known

/-- Sum of memory_bytes over known_processes.get(gpu_idx, []). -/
def knownUsedOn (known : List (Nat × List KnownProc)) (idx : Nat) : ℚ :=
  (List.map (fun g => (List.map (fun p => KnownProc.memory_bytes p) g.2).sum)
    (List.filter (fun g => g.1 == idx) known)).sum

/-- Per-device body of the main loop of calculate_inference, restricted to its
profile-store effect: mark unresolved candidates not-visible (when profiled),
then distribute unknown memory when positive. -/
def deviceCycleStep (knownIds : List String) (gpu_containers : List Container)
    (now : ℚ) (known : List (Nat × List KnownProc)) (s : ProfileStore)
    (dev : Nat × ℚ) : ProfileStore :=
  let unknown_used := unknownMemory dev.2 (knownUsedOn known dev.1)
  let unknown_containers := List.filter (fun c => !(knownIds.contains c.id)) gpu_containers
  let s2 := List.foldl (fun a c => updateProfileIfPresent a c.id now false 0) s
    unknown_containers
  if 0 < unknown_used then distribute_store s2 unknown_used unknown_containers now else s2

/-- Profile-store effect of one full calculate_inference cycle: known-process
phase followed by the per-device loop. Devices are (index, used-bytes) pairs. -/
def calculate_inference_profiles (s : ProfileStore) (devices : List (Nat × ℚ))
    (known : List (Nat × List KnownProc)) (gpu_containers : List Container)
    (now : ℚ) : ProfileStore :=
  let r := processKnownPhase s now known
  List.foldl (deviceCycleStep r.2 gpu_containers now known) r.1 devices

/-- Arithmetic mean of a list of rationals (0 on the empty list). -/
def listMean (l : List ℚ) : ℚ := l.sum / (l.length : ℚ)

/-- Population variance of a list of rationals. -/
def listVariance (l : List ℚ) : ℚ :=
  (List.map (fun x => (x - listMean l) ^ 2) l).sum / (l.length : ℚ)

/-- The stability factor of calculate_inference_confidence:
1 / (1 + variance/mean^2) when the history mean is positive, else 1
(Python: `1 / (1 + variance / (avg ** 2) if avg > 0 else 1)`). -/
def stabilityOf (history : List ℚ) : ℚ :=
  if 0 < listMean history then 1 / (1 + listVariance history / (listMean history) ^ 2)
  else 1

/-- EnhancedGPUInference.calculate_inference_confidence: 0 when the used
memory of the device is 0; otherwise the unknown fraction times the stability factor
(fixed at 0.5 until the used-memory history exceeds 10 samples). -/
def calculate_inference_confidence (history : List ℚ) (unknown_memory total_memory : ℚ) : ℚ :=
  if total_memory = 0 then 0
  else if 10 < history.length then (unknown_memory / total_memory) * stabilityOf history
  else (unknown_memory / total_memory) * (1 / 2)

/-- The value the C9 claim text assigns to typical_memory: unconditionally the
mean of the visible-with-nonzero-memory entries once the history holds more
than 5 entries, with no guard for that entry set being empty. Stated from the
claim for comparison with ContainerProfile.update. -/
def typicalMemoryPerClaim (hist : List Observation) (prior : ℚ) : ℚ :=
  if 5 < hist.length then listMean (visibleMemories hist) else prior

/-- State of the Active-Probe Detector (InferenceDetector). -/
structure InferenceDetector where
  inference_history : List ℚ
  active : Bool
  gpu_likely : ℚ
deriving DecidableEq

/-- InferenceDetector.mark_inference_active: record the observation time in the
bounded history (maxlen 10) and raise the activity flag and likelihood. -/
def mark_inference_active (d : InferenceDetector) (now : ℚ) : InferenceDetector :=
  { d with inference_history := boundedAppend 10 d.inference_history now,
           active := true, gpu_likely := 1 }

/-- Outcome of the synthetic probe request (500 ms timeout). -/
inductive ProbeResult where
  | timeout : ProbeResult
  | completed : ℚ → ProbeResult
deriving DecidableEq

/-- InferenceDetector.check_inference, probe branch: a timed-out probe marks
inference active; a completed probe marks it active when slower than 0.3 s. -/
def check_inference (d : InferenceDetector) (now : ℚ) (r : ProbeResult) :
    InferenceDetector :=
  match r with
  | ProbeResult.timeout => mark_inference_active d now
  | ProbeResult.completed rt =>
    if 3 / 10 < rt then mark_inference_active d now else d

/-- InferenceDetector.update_status: active iff some recorded observation lies
within the preceding 30-second window; likelihood decays linearly from the
most recent one. -/
def update_status (d : InferenceDetector) (now : ℚ) : InferenceDetector :=
  let recent := List.filter (fun t => decide (now - t < 30)) d.inference_history
  match recent.max? with
  | some m => { d with active := true, gpu_likely := max 0 (1 - (now - m) / 30) }
  | none => { d with active := false, gpu_likely := 0 }

/-- The scan of _get_gpu_index_from_uuid: first index whose device UUID string
contains the queried UUID, else 0. -/
def findGpuIndexAux : List String → Nat → String → Nat
  | [], _, _ => 0
  | g :: gs, i, uuid => if pyContains g uuid then i else findGpuIndexAux gs (i + 1) uuid

/-- EnhancedGPUInference._get_gpu_index_from_uuid over the enumerated device
UUID strings. -/
def get_gpu_index_from_uuid (device_uuids : List String) (uuid : String) : Nat :=
  findGpuIndexAux device_uuids 0 uuid

/-- The record get_known_gpu_processes appends for one nvidia-smi CSV row
(pid, gpu_uuid, used MiB): keyed by the resolved device index, with the
memory converted to bytes. -/
def knownProcessEntry (device_uuids : List String) (pid : Nat) (gpu_uuid : String)
    (memory_mb : ℚ) : Nat × Nat × ℚ :=
  (get_gpu_index_from_uuid device_uuids gpu_uuid, pid, memory_mb * 1024 * 1024)



/-- Claim C1 counterexample: with reportedUsed = 3 and knownMemory = 5 (driver
jitter), unknownMemory is clamped to 0 and knownMemory + unknownMemory = 5,
not the reported 3, so the claimed identity fails as stated. -/
theorem C1_counterexample :
    ¬ (0 ≤ unknownMemory 3 5 ∧ 5 + unknownMemory 3 5 = 3) := by
  intro h
  have h2 := h.2
  norm_num [unknownMemory] at h2

/-- Claim C1 (amended): unknownMemory is always nonnegative, and
knownMemory + unknownMemory = max(knownMemory, reportedUsed), which equals
reportedUsed exactly when knownMemory does not exceed it. -/
theorem C1_attribution_identity (total_used known_used : ℚ) :
    0 ≤ unknownMemory total_used known_used ∧
    known_used + unknownMemory total_used known_used = max known_used total_used := by
  refine ⟨le_max_left 0 _, ?_⟩
  unfold unknownMemory
  rcases le_total total_used known_used with h | h
  · rw [max_eq_left (sub_nonpos.mpr h), max_eq_left h]
    ring
  · rw [max_eq_right (sub_nonneg.mpr h), max_eq_right h]
    ring

/-- Claim C4 counterexample: at 50 MiB of unknown memory the enhanced
exporter raises the inference-active flag even though 50 MiB does not exceed
the 100 MiB threshold, refuting the claimed iff for that code path. -/
theorem C4_counterexample :
    inferenceActiveEnhanced (50 * 1024 * 1024) = true ∧
    ¬ (100 * 1024 * 1024 < (50 * 1024 * 1024 : ℚ)) := by
  constructor
  · norm_num [inferenceActiveEnhanced]
  · norm_num

/-- Claim C4 (amended): mega_exporter.py and unified_exporter.py set the
inference-active flag iff unknown memory exceeds 100 MiB, while
enhanced_gpu_inference.py and gpu_inference_exporter.py set it iff unknown
memory is positive. -/
theorem C4_active_flags (unknown : ℚ) :
    (inferenceActiveThreshold unknown = true ↔ 100 * 1024 * 1024 < unknown) ∧
    (inferenceActiveEnhanced unknown = true ↔ 0 < unknown) := by
  constructor
  · simp [inferenceActiveThreshold]
  · simp [inferenceActiveEnhanced]

theorem findGpuIndexAux_no_match (uuid : String) :
    ∀ (l : List String) (i : Nat), (∀ g ∈ l, pyContains g uuid = false) →
      findGpuIndexAux l i uuid = 0 := by
  intro l
  induction l with
  | nil =>
    intro i h
    rfl
  | cons g gs ih =>
    intro i h
    have hg : pyContains g uuid = false := h g (List.mem_cons_self _ _)
    simp only [findGpuIndexAux, hg, Bool.false_eq_true, if_false]
    exact ih (i + 1) (fun x hx => h x (List.mem_cons_of_mem _ hx))

/-- Claim C10: when a driver-reported GPU UUID matches no enumerated device,
the UUID-to-index lookup totally returns index 0, so the corresponding
process record is keyed to device 0 in the known-process grouping. -/
theorem C10_uuid_fallback (device_uuids : List String) (uuid : String)
    (h : ∀ g ∈ device_uuids, pyContains g uuid = false) :
    get_gpu_index_from_uuid device_uuids uuid = 0 ∧
    ∀ (pid : Nat) (memory_mb : ℚ),
      (knownProcessEntry device_uuids pid uuid memory_mb).1 = 0 := by
  have h0 : get_gpu_index_from_uuid device_uuids uuid = 0 :=
    findGpuIndexAux_no_match uuid device_uuids 0 h
  exact ⟨h0, fun pid mb => h0⟩

/-- Witness for C10 on two enumerated devices and an unmatched UUID. -/
theorem C10_uuid_fallback_witness :
    (∀ g ∈ ["GPU-aaaa1111", "GPU-bbbb2222"], pyContains g "GPU-cccc3333" = false) ∧
    get_gpu_index_from_uuid ["GPU-aaaa1111", "GPU-bbbb2222"] "GPU-cccc3333" = 0 ∧
    (knownProcessEntry ["GPU-aaaa1111", "GPU-bbbb2222"] 42 "GPU-cccc3333" 16).1 = 0 :=
  ⟨by decide,
   (C10_uuid_fallback ["GPU-aaaa1111", "GPU-bbbb2222"] "GPU-cccc3333" (by decide)).1,
   (C10_uuid_fallback ["GPU-aaaa1111", "GPU-bbbb2222"] "GPU-cccc3333" (by decide)).2 42 16⟩

/-- Claim C7: a timed-out probe request transitions the detector to active in
the same step from any state (the detector state carries no memory-based
attribution data, so the transition is unconditional), and update_status
reports idle exactly when no recorded observation lies within the preceding
30-second quiescence window. -/
theorem C7_probe_detector (d : InferenceDetector) (now pnow : ℚ) :
    (check_inference d pnow ProbeResult.timeout).active = true ∧
    ((update_status d now).active = false ↔
      ∀ t ∈ d.inference_history, 30 ≤ now - t) := by
  constructor
  · rfl
  · have key : (List.filter (fun t => decide (now - t < 30)) d.inference_history) = [] ↔
        ∀ t ∈ d.inference_history, 30 ≤ now - t := by
      rw [List.filter_eq_nil_iff]
      constructor
      · intro h t ht
        have h2 := h t ht
        simp at h2
        linarith
      · intro h t ht
        simp
        linarith [h t ht]
    unfold update_status
    rcases hm : (List.filter (fun t => decide (now - t < 30)) d.inference_history).max?
      with _ | m
    · have h0 : (List.filter (fun t => decide (now - t < 30)) d.inference_history) = [] :=
        List.max?_eq_none_iff.mp hm
      simp only [hm]
      simpa using key.mp h0
    · have hne : (List.filter (fun t => decide (now - t < 30)) d.inference_history) ≠ [] := by
        intro hemp
        rw [hemp] at hm
        simp at hm
      simp only [hm]
      simp only [Bool.true_eq_false, false_iff]
      intro hall
      exact absurd (key.mpr hall) hne



theorem recencyScore_nonneg (last : Option ℚ) (now : ℚ) :
    0 ≤ recencyScore last now := by
  rcases last with _ | t
  · exact le_refl 0
  · simp only [recencyScore]
    split_ifs with ht hlt
    · exact le_refl 0
    · have hx : (now - t) / 300 < 1 := by
        rw [div_lt_one (by norm_num : (0:ℚ) < 300)]
        linarith
      nlinarith
    · exact le_refl 0

theorem score_nonneg (p : ContainerProfile) (now : ℚ) :
    0 ≤ p.get_gpu_likelihood_score now := by
  unfold ContainerProfile.get_gpu_likelihood_score
  refine le_min ?_ zero_le_one
  have h1 : (0:ℚ) ≤ (if p.is_llm then 1/2 else 0) := by split_ifs <;> norm_num
  have h2 := recencyScore_nonneg p.last_seen_with_gpu now
  have h3 : (0:ℚ) ≤ (if 10 < p.gpu_history.length then
      1/5 * (((p.gpu_history.filter (fun o => o.visible)).length : ℚ) /
        (p.gpu_history.length : ℚ))
    else 0) := by
    split_ifs
    · positivity
    · exact le_refl 0
  linarith

theorem score_le_one (p : ContainerProfile) (now : ℚ) :
    p.get_gpu_likelihood_score now ≤ 1 := by
  unfold ContainerProfile.get_gpu_likelihood_score
  exact min_le_right _ _



/-- Claim C5: the likelihood score of every profile at every evaluation time
lies in [0,1], and with no GPU-visible history an ollama-worker-named profile
scores strictly higher than an otherwise-identical nginx-named one. -/
theorem C5_likelihood (p : ContainerProfile) (now : ℚ) (hist : List Observation)
    (hvis : ∀ o ∈ hist, o.visible = false) :
    (0 ≤ p.get_gpu_likelihood_score now ∧ p.get_gpu_likelihood_score now ≤ 1) ∧
    ContainerProfile.get_gpu_likelihood_score
      ⟨"c2", "nginx", hist, none, 0, detect_llm_container "nginx"⟩ now <
    ContainerProfile.get_gpu_likelihood_score
      ⟨"c1", "ollama-worker", hist, none, 0, detect_llm_container "ollama-worker"⟩ now := by
  refine ⟨⟨score_nonneg p now, score_le_one p now⟩, ?_⟩
  have hfil : hist.filter (fun o => o.visible) = [] := by
    rw [List.filter_eq_nil_iff]
    intro o ho
    simp [hvis o ho]
  have hnginx : detect_llm_container "nginx" = false := by decide
  have hollama : detect_llm_container "ollama-worker" = true := by decide
  unfold ContainerProfile.get_gpu_likelihood_score
  simp only [hnginx, hollama, hfil, recencyScore, List.length_nil, Nat.cast_zero,
    zero_div, mul_zero, ite_self]
  norm_num

/-- Witness for C5 at the empty history and time 0. -/
theorem C5_likelihood_witness :
    (∀ o ∈ ([] : List Observation), o.visible = false) ∧
    (0 ≤ (ContainerProfile.mk0 "w1" "web").get_gpu_likelihood_score 0 ∧
      (ContainerProfile.mk0 "w1" "web").get_gpu_likelihood_score 0 ≤ 1) ∧
    ContainerProfile.get_gpu_likelihood_score
      ⟨"c2", "nginx", [], none, 0, detect_llm_container "nginx"⟩ 0 <
    ContainerProfile.get_gpu_likelihood_score
      ⟨"c1", "ollama-worker", [], none, 0, detect_llm_container "ollama-worker"⟩ 0 :=
  ⟨by simp, C5_likelihood (ContainerProfile.mk0 "w1" "web") 0 [] (by simp)⟩

theorem listVariance_nonneg (l : List ℚ) : 0 ≤ listVariance l := by
  unfold listVariance
  apply div_nonneg
  · apply List.sum_nonneg
    intro x hx
    obtain ⟨y, hy, rfl⟩ := List.mem_map.mp hx
    positivity
  · positivity

theorem stabilityOf_pos (h : List ℚ) : 0 < stabilityOf h := by
  unfold stabilityOf
  split_ifs with hm
  · have h1 := listVariance_nonneg h
    have h2 : (0:ℚ) < (listMean h) ^ 2 := by positivity
    have h3 : 0 ≤ listVariance h / (listMean h) ^ 2 := div_nonneg h1 h2.le
    have h4 : (0:ℚ) < 1 + listVariance h / (listMean h) ^ 2 := by linarith
    positivity
  · norm_num

theorem stabilityOf_le_one (h : List ℚ) : stabilityOf h ≤ 1 := by
  unfold stabilityOf
  split_ifs with hm
  · have h1 := listVariance_nonneg h
    have h2 : (0:ℚ) < (listMean h) ^ 2 := by positivity
    have h3 : 0 ≤ listVariance h / (listMean h) ^ 2 := div_nonneg h1 h2.le
    rw [div_le_one (by linarith)]
    linarith
  · exact le_refl 1

/-- Claim C6: the confidence value lies in [0,1] whenever the unknown memory
is between 0 and the used total, it is 0 when the used memory is 0, and for a
fixed history (hence fixed stability factor) it is monotonically
non-decreasing in the unknown amount. -/
theorem C6_confidence (history : List ℚ) (u u1 u2 total : ℚ)
    (hu : 0 ≤ u) (hut : u ≤ total) (h12 : u1 ≤ u2) (htot : 0 ≤ total) :
    (0 ≤ calculate_inference_confidence history u total ∧
      calculate_inference_confidence history u total ≤ 1) ∧
    calculate_inference_confidence history u 0 = 0 ∧
    calculate_inference_confidence history u1 total ≤
      calculate_inference_confidence history u2 total := by
  refine ⟨?_, ?_, ?_⟩
  · unfold calculate_inference_confidence
    split_ifs with h0 hlen
    · exact ⟨le_refl 0, zero_le_one⟩
    · have htot2 : 0 < total := lt_of_le_of_ne htot (Ne.symm h0)
      have hr0 : 0 ≤ u / total := div_nonneg hu htot
      have hr1 : u / total ≤ 1 := (div_le_one htot2).mpr hut
      have hs0 := stabilityOf_pos history
      have hs1 := stabilityOf_le_one history
      constructor
      · positivity
      · calc u / total * stabilityOf history ≤ 1 * 1 :=
              mul_le_mul hr1 hs1 hs0.le zero_le_one
          _ = 1 := by norm_num
    · have htot2 : 0 < total := lt_of_le_of_ne htot (Ne.symm h0)
      have hr0 : 0 ≤ u / total := div_nonneg hu htot
      have hr1 : u / total ≤ 1 := (div_le_one htot2).mpr hut
      constructor
      · positivity
      · nlinarith
  · unfold calculate_inference_confidence
    simp
  · unfold calculate_inference_confidence
    split_ifs with h0 hlen
    · exact le_refl 0
    · have htot2 : 0 < total := lt_of_le_of_ne htot (Ne.symm h0)
      have := stabilityOf_pos history
      apply mul_le_mul_of_nonneg_right _ this.le
      exact (div_le_div_iff_of_pos_right htot2).mpr h12
    · have htot2 : 0 < total := lt_of_le_of_ne htot (Ne.symm h0)
      apply mul_le_mul_of_nonneg_right _ (by norm_num : (0:ℚ) ≤ 1/2)
      exact (div_le_div_iff_of_pos_right htot2).mpr h12

/-- Witness for C6 at history [4, 4], unknown 1 and 2, used total 4. -/
theorem C6_confidence_witness :
    (0 ≤ (1:ℚ)) ∧ ((1:ℚ) ≤ 4) ∧ ((1:ℚ) ≤ 2) ∧ (0 ≤ (4:ℚ)) ∧
    (0 ≤ calculate_inference_confidence [4, 4] 1 4 ∧
      calculate_inference_confidence [4, 4] 1 4 ≤ 1) ∧
    calculate_inference_confidence [4, 4] 1 0 = 0 ∧
    calculate_inference_confidence [4, 4] 1 4 ≤
      calculate_inference_confidence [4, 4] 2 4 :=
  ⟨by norm_num, by norm_num, by norm_num, by norm_num,
   C6_confidence [4, 4] 1 1 2 4 (by norm_num) (by norm_num) (by norm_num) (by norm_num)⟩



theorem containerWeight_one_le (p : ContainerProfile) (now : ℚ) :
    1 ≤ containerWeight p now := by
  have h0 := score_nonneg p now
  simp only [containerWeight]
  split_ifs with h <;> nlinarith

theorem get_container_weight_fst_one_le (s : ProfileStore) (c : Container) (now : ℚ) :
    1 ≤ (get_container_weight s c now).1 := by
  unfold get_container_weight
  rcases h : storeFind s c.id with _ | p
  · simp only [h]
    exact containerWeight_one_le _ _
  · simp only [h]
    exact containerWeight_one_le _ _

theorem weighContainers_snd_all_one_le (now : ℚ) :
    ∀ (cs : List Container) (s : ProfileStore) (acc : List ℚ),
      (∀ w ∈ acc, 1 ≤ w) →
      ∀ w ∈ (List.foldl (fun acc c =>
        let r := get_container_weight acc.1 c now
        (r.2, acc.2 ++ [r.1])) (s, acc) cs).2, 1 ≤ w := by
  intro cs
  induction cs with
  | nil =>
    intro s acc hacc w hw
    exact hacc w hw
  | cons c rest ih =>
    intro s acc hacc w hw
    simp only [List.foldl_cons] at hw
    refine ih _ _ ?_ w hw
    intro x hx
    rcases List.mem_append.mp hx with h | h
    · exact hacc x h
    · simp only [List.mem_singleton] at h
      subst h
      exact get_container_weight_fst_one_le _ _ _

theorem weighContainers_snd_length (now : ℚ) :
    ∀ (cs : List Container) (s : ProfileStore) (acc : List ℚ),
      (List.foldl (fun acc c =>
        let r := get_container_weight acc.1 c now
        (r.2, acc.2 ++ [r.1])) (s, acc) cs).2.length = acc.length + cs.length := by
  intro cs
  induction cs with
  | nil =>
    intro s acc
    simp
  | cons c rest ih =>
    intro s acc
    simp only [List.foldl_cons]
    rw [ih]
    simp only [List.length_append, List.length_cons, List.length_nil]
    omega

theorem distribute_weights_all_one_le (s : ProfileStore) (cs : List Container) (now : ℚ) :
    ∀ w ∈ distribute_weights s cs now, 1 ≤ w := by
  intro w hw
  exact weighContainers_snd_all_one_le now cs s [] (by intro x hx; cases hx) w hw

theorem distribute_weights_length (s : ProfileStore) (cs : List Container) (now : ℚ) :
    (distribute_weights s cs now).length = cs.length := by
  have := weighContainers_snd_length now cs s []
  simpa [distribute_weights, weighContainers] using this

theorem sum_map_div (l : List ℚ) (t : ℚ) :
    (List.map (fun w => w / t) l).sum = l.sum / t := by
  induction l with
  | nil => simp
  | cons x xs ih => simp [ih, add_div]

theorem sum_map_mul_div (l : List ℚ) (u t : ℚ) :
    (List.map (fun w => u * (w / t)) l).sum = u * (l.sum / t) := by
  induction l with
  | nil => simp
  | cons x xs ih =>
    simp only [List.map_cons, List.sum_cons, ih]
    ring

theorem distribute_weights_sum_pos (s : ProfileStore) (cs : List Container) (now : ℚ)
    (hcs : cs ≠ []) : 0 < (distribute_weights s cs now).sum := by
  have hall := distribute_weights_all_one_le s cs now
  have hlen := distribute_weights_length s cs now
  rcases hws : distribute_weights s cs now with _ | ⟨w, rest⟩
  · rw [hws] at hlen
    exact absurd (List.length_eq_zero.mp hlen.symm) hcs
  · rw [hws] at hall
    have h1 : 1 ≤ w := hall w (List.mem_cons_self _ _)
    have h2 : 0 ≤ rest.sum := by
      apply List.sum_nonneg
      intro x hx
      have := hall x (List.mem_cons_of_mem _ hx)
      linarith
    simp only [List.sum_cons]
    linarith

/-- Claim C2: for positive unknown memory and a non-empty unresolved candidate
list, the normalized weights sum to 1, the inferred allocations sum exactly to
the unknown memory, and no single allocation exceeds it (exact rational
arithmetic). -/
theorem C2_distribution (s : ProfileStore) (unknown : ℚ) (cs : List Container) (now : ℚ)
    (hcs : cs ≠ []) (hunk : 0 < unknown) :
    (List.map (fun w => w / (distribute_weights s cs now).sum)
        (distribute_weights s cs now)).sum = 1 ∧
    (distribute_alloc s unknown cs now).sum = unknown ∧
    ∀ a ∈ distribute_alloc s unknown cs now, a ≤ unknown := by
  have htot := distribute_weights_sum_pos s cs now hcs
  have hall := distribute_weights_all_one_le s cs now
  have halloc : distribute_alloc s unknown cs now =
      List.map (fun w => unknown * (w / (distribute_weights s cs now).sum))
        (distribute_weights s cs now) := by
    unfold distribute_alloc
    rw [if_neg (by push_neg; exact ⟨hcs, hunk⟩)]
    simp only [htot, if_true]
  refine ⟨?_, ?_, ?_⟩
  · rw [sum_map_div, div_self (ne_of_gt htot)]
  · rw [halloc, sum_map_mul_div, div_self (ne_of_gt htot), mul_one]
  · intro a ha
    rw [halloc] at ha
    obtain ⟨w, hw, rfl⟩ := List.mem_map.mp ha
    have hwle : w ≤ (distribute_weights s cs now).sum := by
      apply List.single_le_sum _ _ hw
      intro x hx
      have := hall x hx
      linarith
    have : w / (distribute_weights s cs now).sum ≤ 1 := (div_le_one htot).mpr hwle
    nlinarith

/-- Witness for C2 with two fresh candidates and 4 bytes of unknown memory. -/
theorem C2_distribution_witness :
    ([⟨"b1", "ollama"⟩, ⟨"c1", "web"⟩] ≠ ([] : List Container)) ∧ (0:ℚ) < 4 ∧
    ((List.map (fun w => w / (distribute_weights [] [⟨"b1", "ollama"⟩, ⟨"c1", "web"⟩] 0).sum)
        (distribute_weights [] [⟨"b1", "ollama"⟩, ⟨"c1", "web"⟩] 0)).sum = 1 ∧
    (distribute_alloc [] 4 [⟨"b1", "ollama"⟩, ⟨"c1", "web"⟩] 0).sum = 4 ∧
    ∀ a ∈ distribute_alloc [] 4 [⟨"b1", "ollama"⟩, ⟨"c1", "web"⟩] 0, a ≤ 4) :=
  ⟨by simp, by norm_num,
   C2_distribution [] 4 [⟨"b1", "ollama"⟩, ⟨"c1", "web"⟩] 0 (by simp) (by norm_num)⟩



theorem likelihood_ollama_half : (ContainerProfile.mk0 "b1" "ollama").get_gpu_likelihood_score 0 = 1/2 := by
  unfold ContainerProfile.get_gpu_likelihood_score
  have h : detect_llm_container "ollama" = true := by decide
  simp [ContainerProfile.mk0, recencyScore, h]
  norm_num

theorem likelihood_web_zero : (ContainerProfile.mk0 "c1" "web").get_gpu_likelihood_score 0 = 0 := by
  unfold ContainerProfile.get_gpu_likelihood_score
  have h : detect_llm_container "web" = false := by decide
  simp [ContainerProfile.mk0, recencyScore, h]

theorem weight_ollama_eq_three : containerWeight (ContainerProfile.mk0 "b1" "ollama") 0 = 3 := by
  have h : (ContainerProfile.mk0 "b1" "ollama").is_llm = true := by decide
  simp [containerWeight, h, likelihood_ollama_half]
  norm_num

theorem weight_web_eq_one : containerWeight (ContainerProfile.mk0 "c1" "web") 0 = 1 := by
  have h : (ContainerProfile.mk0 "c1" "web").is_llm = false := by decide
  simp [containerWeight, h, likelihood_web_zero]

theorem distribute_weights_example_eval : distribute_weights [] [⟨"b1", "ollama"⟩, ⟨"c1", "web"⟩] 0 = [3, 1] := by
  unfold distribute_weights weighContainers
  simp only [List.foldl_cons, List.foldl_nil]
  simp only [get_container_weight]
  have h1 : storeFind ([] : ProfileStore) "b1" = none := rfl
  have h2 : storeFind [("b1", ContainerProfile.mk0 "b1" "ollama")] "c1" = none := by decide
  simp [h1, h2, weight_ollama_eq_three, weight_web_eq_one]

/-- Claim C3: on a device with 10 GiB used and one known 2 GiB process, the
unknown memory is 8 GiB; the never-seen candidates named ollama and web weigh
3 and 1, receive 6 GiB and 2 GiB, and the inference-active flag of the
enhanced exporter is raised. -/
theorem C3_sixteen_gib_device :
    unknownMemory (10 * 1024 ^ 3) (2 * 1024 ^ 3) = 8 * 1024 ^ 3 ∧
    containerWeight (ContainerProfile.mk0 "b1" "ollama") 0 = 3 ∧
    containerWeight (ContainerProfile.mk0 "c1" "web") 0 = 1 ∧
    distribute_alloc [] (8 * 1024 ^ 3) [⟨"b1", "ollama"⟩, ⟨"c1", "web"⟩] 0 =
      [6 * 1024 ^ 3, 2 * 1024 ^ 3] ∧
    inferenceActiveEnhanced (8 * 1024 ^ 3) = true := by
  refine ⟨?_, weight_ollama_eq_three, weight_web_eq_one, ?_, ?_⟩
  · unfold unknownMemory
    rw [max_eq_right (by norm_num)]
    norm_num
  · unfold distribute_alloc
    rw [if_neg (by push_neg; exact ⟨by simp, by norm_num⟩)]
    simp only [distribute_weights_example_eval]
    norm_num
  · norm_num [inferenceActiveEnhanced]



theorem boundedAppend_eq (p : ContainerProfile) (now : ℚ) (vis : Bool) (mem : ℚ)
    (hlen : p.gpu_history.length ≤ HISTORY_SIZE) :
    boundedAppend HISTORY_SIZE p.gpu_history ⟨now, vis, mem⟩ =
      (if p.gpu_history.length < HISTORY_SIZE
       then p.gpu_history ++ [⟨now, vis, mem⟩]
       else p.gpu_history.tail ++ [⟨now, vis, mem⟩]) := by
  unfold boundedAppend
  by_cases hc : p.gpu_history.length < HISTORY_SIZE
  · rw [if_pos hc, if_neg]
    simp only [List.length_append, List.length_cons, List.length_nil]
    omega
  · have h30 : p.gpu_history.length = HISTORY_SIZE := le_antisymm hlen (not_lt.mp hc)
    rw [if_neg hc, if_pos]
    · have hd : (p.gpu_history ++ [(⟨now, vis, mem⟩ : Observation)]).length -
        HISTORY_SIZE = 1 := by
        simp only [List.length_append, List.length_cons, List.length_nil]
        omega
      rw [hd, List.drop_append_of_le_length (by simp [HISTORY_SIZE] at h30; omega),
        List.drop_one]
    · simp only [List.length_append, List.length_cons, List.length_nil]
      simp only [HISTORY_SIZE] at h30 ⊢
      omega

/-- Claim C9 (amended): update appends the observation to the bounded history
evicting the oldest entry at the bound, refreshes the last-visible timestamp
exactly on visible observations, and recomputes the typical-memory estimate
as the mean of visible-with-nonzero-memory entries once the history holds
more than 5 entries AND at least one such entry exists; otherwise the prior
value is retained. -/
theorem C9_update (p : ContainerProfile) (now : ℚ) (vis : Bool) (mem : ℚ)
    (hlen : p.gpu_history.length ≤ HISTORY_SIZE) :
    (p.update now vis mem).gpu_history =
      (if p.gpu_history.length < HISTORY_SIZE
       then p.gpu_history ++ [⟨now, vis, mem⟩]
       else p.gpu_history.tail ++ [⟨now, vis, mem⟩]) ∧
    (p.update now vis mem).gpu_history.length ≤ HISTORY_SIZE ∧
    (p.update now vis mem).last_seen_with_gpu =
      (if vis then some now else p.last_seen_with_gpu) ∧
    (p.update now vis mem).typical_memory =
      (if 5 < (p.update now vis mem).gpu_history.length ∧
          visibleMemories ((p.update now vis mem).gpu_history) ≠ []
       then listMean (visibleMemories ((p.update now vis mem).gpu_history))
       else p.typical_memory) := by
  have hb := boundedAppend_eq p now vis mem hlen
  have hhist : (p.update now vis mem).gpu_history =
      boundedAppend HISTORY_SIZE p.gpu_history ⟨now, vis, mem⟩ := rfl
  refine ⟨hhist.trans hb, ?_, rfl, ?_⟩
  · rw [hhist, hb]
    by_cases hc : p.gpu_history.length < HISTORY_SIZE
    · rw [if_pos hc]
      simp only [List.length_append, List.length_cons, List.length_nil]
      simp only [HISTORY_SIZE] at hc ⊢
      omega
    · have h30 : p.gpu_history.length = HISTORY_SIZE := le_antisymm hlen (not_lt.mp hc)
      rw [if_neg hc]
      simp only [List.length_append, List.length_cons, List.length_nil, List.length_tail]
      simp only [HISTORY_SIZE] at h30 ⊢
      omega
  · have htyp : (p.update now vis mem).typical_memory =
        (if 5 < (boundedAppend HISTORY_SIZE p.gpu_history ⟨now, vis, mem⟩).length then
          (if (visibleMemories (boundedAppend HISTORY_SIZE p.gpu_history
                ⟨now, vis, mem⟩)).length ≠ 0
           then (visibleMemories (boundedAppend HISTORY_SIZE p.gpu_history
                  ⟨now, vis, mem⟩)).sum /
             ((visibleMemories (boundedAppend HISTORY_SIZE p.gpu_history
                  ⟨now, vis, mem⟩)).length : ℚ)
           else p.typical_memory)
         else p.typical_memory) := rfl
    rw [htyp, hhist]
    by_cases h5 : 5 < (boundedAppend HISTORY_SIZE p.gpu_history
        (⟨now, vis, mem⟩ : Observation)).length
    · rw [if_pos h5]
      by_cases hvm : (visibleMemories (boundedAppend HISTORY_SIZE p.gpu_history
          (⟨now, vis, mem⟩ : Observation))).length ≠ 0
      · rw [if_pos hvm, if_pos ⟨h5, fun hx => hvm (by rw [hx]; rfl)⟩]
        rfl
      · push_neg at hvm
        rw [if_neg (not_not_intro hvm), if_neg]
        intro hx
        exact hx.2 (List.length_eq_zero.mp hvm)
    · rw [if_neg h5, if_neg]
      intro hx
      exact h5 hx.1



/-- Claim C9 counterexample: a sixth non-visible observation makes the history
exceed 5 entries with no visible-with-nonzero-memory entry; the code retains
the prior estimate 7 while the claim text recomputes the (empty) mean, 0. -/
theorem C9_counterexample :
    (ContainerProfile.update
      ⟨"c9", "web", [⟨0, false, 0⟩, ⟨0, false, 0⟩, ⟨0, false, 0⟩, ⟨0, false, 0⟩,
        ⟨0, false, 0⟩], none, 7, false⟩ 1 false 0).typical_memory = 7 ∧
    typicalMemoryPerClaim
      ((ContainerProfile.update
        ⟨"c9", "web", [⟨0, false, 0⟩, ⟨0, false, 0⟩, ⟨0, false, 0⟩, ⟨0, false, 0⟩,
          ⟨0, false, 0⟩], none, 7, false⟩ 1 false 0).gpu_history) 7 = 0 ∧
    (7 : ℚ) ≠ 0 := by
  refine ⟨?_, ?_, by norm_num⟩
  · simp [ContainerProfile.update, boundedAppend, visibleMemories, HISTORY_SIZE]
  · simp [ContainerProfile.update, boundedAppend, visibleMemories,
      typicalMemoryPerClaim, listMean, HISTORY_SIZE]

/-- Witness for C9 on a fresh profile receiving a visible observation. -/
theorem C9_update_witness :
    (ContainerProfile.mk0 "w9" "web").gpu_history.length ≤ HISTORY_SIZE ∧
    (((ContainerProfile.mk0 "w9" "web").update 2 true 5).gpu_history =
      (if (ContainerProfile.mk0 "w9" "web").gpu_history.length < HISTORY_SIZE
       then (ContainerProfile.mk0 "w9" "web").gpu_history ++ [⟨2, true, 5⟩]
       else (ContainerProfile.mk0 "w9" "web").gpu_history.tail ++ [⟨2, true, 5⟩]) ∧
    ((ContainerProfile.mk0 "w9" "web").update 2 true 5).gpu_history.length ≤ HISTORY_SIZE ∧
    ((ContainerProfile.mk0 "w9" "web").update 2 true 5).last_seen_with_gpu =
      (if true then some 2 else (ContainerProfile.mk0 "w9" "web").last_seen_with_gpu) ∧
    ((ContainerProfile.mk0 "w9" "web").update 2 true 5).typical_memory =
      (if 5 < ((ContainerProfile.mk0 "w9" "web").update 2 true 5).gpu_history.length ∧
          visibleMemories (((ContainerProfile.mk0 "w9" "web").update 2 true 5).gpu_history) ≠ []
       then listMean (visibleMemories (((ContainerProfile.mk0 "w9" "web").update 2
          true 5).gpu_history))
       else (ContainerProfile.mk0 "w9" "web").typical_memory)) :=
  ⟨by decide, C9_update (ContainerProfile.mk0 "w9" "web") 2 true 5 (by decide)⟩



theorem storeFind_isSome_iff_mem (cid : String) : ∀ (s : ProfileStore),
    (storeFind s cid).isSome = true ↔ cid ∈ List.map Prod.fst s := by
  intro s
  induction s with
  | nil => simp [storeFind]
  | cons e rest ih =>
    unfold storeFind at ih ⊢
    by_cases h : (e.1 == cid) = true
    · have he : e.1 = cid := by simpa using h
      simp [List.find?, h, he]
    · have he : e.1 ≠ cid := by simpa using h
      have hf : (e.1 == cid) = false := by simpa using h
      simp only [List.find?, hf, List.map_cons, List.mem_cons, cond_false]
      rw [ih]
      constructor
      · exact Or.inr
      · rintro (h1 | h1)
        · exact absurd h1.symm he
        · exact h1

theorem keys_updateProfileIfPresent (s : ProfileStore) (cid : String) (now : ℚ)
    (vis : Bool) (mem : ℚ) :
    List.map Prod.fst (updateProfileIfPresent s cid now vis mem) =
      List.map Prod.fst s := by
  unfold updateProfileIfPresent
  rw [List.map_map]
  apply List.map_congr_left
  intro e he
  simp only [Function.comp_apply]
  split_ifs <;> rfl

theorem mem_keys_gcw (s : ProfileStore) (c : Container) (now : ℚ) (cid : String)
    (h : cid ∈ List.map Prod.fst s) :
    cid ∈ List.map Prod.fst (get_container_weight s c now).2 := by
  unfold get_container_weight
  rcases hf : storeFind s c.id with _ | p
  · simp only [hf, List.map_append, List.map_cons, List.map_nil]
    exact List.mem_append.mpr (Or.inl h)
  · simpa only [hf] using h

theorem self_mem_keys_gcw (s : ProfileStore) (c : Container) (now : ℚ) :
    c.id ∈ List.map Prod.fst (get_container_weight s c now).2 := by
  unfold get_container_weight
  rcases hf : storeFind s c.id with _ | p
  · simp
  · have hs : (storeFind s c.id).isSome = true := by rw [hf]; rfl
    simpa only [hf] using (storeFind_isSome_iff_mem c.id s).mp hs

theorem weighContainers_fst_preserves (now : ℚ) :
    ∀ (cs : List Container) (s : ProfileStore) (acc : List ℚ) (cid : String),
      cid ∈ List.map Prod.fst s →
      cid ∈ List.map Prod.fst (List.foldl (fun acc c =>
        let r := get_container_weight acc.1 c now
        (r.2, acc.2 ++ [r.1])) (s, acc) cs).1 := by
  intro cs
  induction cs with
  | nil =>
    intro s acc cid h
    exact h
  | cons c rest ih =>
    intro s acc cid h
    simp only [List.foldl_cons]
    exact ih _ _ cid (mem_keys_gcw s c now cid h)

theorem weighContainers_fst_creates (now : ℚ) :
    ∀ (cs : List Container) (s : ProfileStore) (acc : List ℚ) (c : Container),
      c ∈ cs →
      c.id ∈ List.map Prod.fst (List.foldl (fun acc c =>
        let r := get_container_weight acc.1 c now
        (r.2, acc.2 ++ [r.1])) (s, acc) cs).1 := by
  intro cs
  induction cs with
  | nil =>
    intro s acc c hc
    cases hc
  | cons c2 rest ih =>
    intro s acc c hc
    simp only [List.foldl_cons]
    rcases List.mem_cons.mp hc with h | h
    · subst h
      exact weighContainers_fst_preserves now rest _ _ c.id (self_mem_keys_gcw s c now)
    · exact ih _ _ c h

theorem distribute_store_mem (s : ProfileStore) (unknown : ℚ) (cs : List Container)
    (now : ℚ) (c : Container) (hc : c ∈ cs) (hu : 0 < unknown) :
    c.id ∈ List.map Prod.fst (distribute_store s unknown cs now) := by
  unfold distribute_store
  rw [if_neg (by push_neg; exact ⟨List.ne_nil_of_mem hc, hu⟩)]
  unfold weighContainers
  exact weighContainers_fst_creates now cs s [] c hc

theorem distribute_store_preserves (s : ProfileStore) (unknown : ℚ) (cs : List Container)
    (now : ℚ) (cid : String) (h : cid ∈ List.map Prod.fst s) :
    cid ∈ List.map Prod.fst (distribute_store s unknown cs now) := by
  unfold distribute_store
  split_ifs
  · exact h
  · unfold weighContainers
    exact weighContainers_fst_preserves now cs s [] cid h

theorem foldl_update_keys (now : ℚ) :
    ∀ (cs : List Container) (s : ProfileStore),
      List.map Prod.fst (List.foldl (fun a c => updateProfileIfPresent a c.id now false 0)
        s cs) = List.map Prod.fst s := by
  intro cs
  induction cs with
  | nil =>
    intro s
    rfl
  | cons c rest ih =>
    intro s
    simp only [List.foldl_cons]
    rw [ih, keys_updateProfileIfPresent]

theorem deviceCycleStep_preserves (knownIds : List String) (gpu_containers : List Container)
    (now : ℚ) (known : List (Nat × List KnownProc)) (s : ProfileStore) (dev : Nat × ℚ)
    (cid : String) (h : cid ∈ List.map Prod.fst s) :
    cid ∈ List.map Prod.fst (deviceCycleStep knownIds gpu_containers now known s dev) := by
  simp only [deviceCycleStep]
  split_ifs with hu
  · apply distribute_store_preserves
    rw [foldl_update_keys]
    exact h
  · rw [foldl_update_keys]
    exact h

theorem deviceCycleStep_creates (knownIds : List String) (gpu_containers : List Container)
    (now : ℚ) (known : List (Nat × List KnownProc)) (s : ProfileStore) (dev : Nat × ℚ)
    (c : Container) (hc : c ∈ gpu_containers) (hres : knownIds.contains c.id = false)
    (hu : 0 < unknownMemory dev.2 (knownUsedOn known dev.1)) :
    c.id ∈ List.map Prod.fst (deviceCycleStep knownIds gpu_containers now known s dev) := by
  simp only [deviceCycleStep]
  rw [if_pos hu]
  apply distribute_store_mem
  · refine List.mem_filter.mpr ⟨hc, ?_⟩
    simp only [hres, Bool.not_false]
  · exact hu

theorem foldl_deviceCycle_preserves (knownIds : List String)
    (gpu_containers : List Container) (now : ℚ) (known : List (Nat × List KnownProc)) :
    ∀ (devices : List (Nat × ℚ)) (s : ProfileStore) (cid : String),
      cid ∈ List.map Prod.fst s →
      cid ∈ List.map Prod.fst (List.foldl
        (deviceCycleStep knownIds gpu_containers now known) s devices) := by
  intro devices
  induction devices with
  | nil =>
    intro s cid h
    exact h
  | cons d2 rest ih =>
    intro s cid h
    simp only [List.foldl_cons]
    exact ih _ cid (deviceCycleStep_preserves knownIds gpu_containers now known s d2 cid h)

theorem foldl_deviceCycle_creates (knownIds : List String) (gpu_containers : List Container)
    (now : ℚ) (known : List (Nat × List KnownProc)) (c : Container) (d : Nat × ℚ)
    (hc : c ∈ gpu_containers) (hres : knownIds.contains c.id = false)
    (hu : 0 < unknownMemory d.2 (knownUsedOn known d.1)) :
    ∀ (devices : List (Nat × ℚ)) (s : ProfileStore), d ∈ devices →
      c.id ∈ List.map Prod.fst (List.foldl
        (deviceCycleStep knownIds gpu_containers now known) s devices) := by
  intro devices
  induction devices with
  | nil =>
    intro s hd
    cases hd
  | cons d2 rest ih =>
    intro s hd
    simp only [List.foldl_cons]
    rcases List.mem_cons.mp hd with h | h
    · subst h
      exact foldl_deviceCycle_preserves knownIds gpu_containers now known rest _ c.id
        (deviceCycleStep_creates knownIds gpu_containers now known s d c hc hres hu)
    · exact ih _ h

/-- Claim C8 (amended): after a collection cycle, every GPU-access container
that is not directly attributed in the known-process phase has a profile in
the store, provided at least one device carried positive unknown memory (the
code creates profiles only inside get_container_weight, reached from
distribute_unknown_memory). -/
theorem C8_profile_creation (s : ProfileStore) (devices : List (Nat × ℚ))
    (known : List (Nat × List KnownProc)) (gpu_containers : List Container)
    (now : ℚ) (c : Container) (d : Nat × ℚ)
    (hc : c ∈ gpu_containers)
    (hres : ((processKnownPhase s now known).2).contains c.id = false)
    (hd : d ∈ devices)
    (hu : 0 < unknownMemory d.2 (knownUsedOn known d.1)) :
    (storeFind (calculate_inference_profiles s devices known gpu_containers now)
      c.id).isSome = true := by
  rw [storeFind_isSome_iff_mem]
  unfold calculate_inference_profiles
  exact foldl_deviceCycle_creates (processKnownPhase s now known).2 gpu_containers now
    known c d hc hres hu devices (processKnownPhase s now known).1 hd



/-- Claim C8 counterexample: a directly attributed container on its first
sighting, on a device with zero unknown memory, is observed during the cycle
yet ends the cycle with no profile in the store. -/
theorem C8_counterexample :
    (⟨"a1", "app"⟩ : Container) ∈ [(⟨"a1", "app"⟩ : Container)] ∧
    storeFind (calculate_inference_profiles [] [(0, 2)]
      [(0, [⟨100, 2, some ⟨"a1", "app"⟩⟩])] [⟨"a1", "app"⟩] 0) "a1" = none := by
  refine ⟨by simp, ?_⟩
  have hknown : knownUsedOn [(0, [(⟨100, 2, some ⟨"a1", "app"⟩⟩ : KnownProc)])] 0 = 2 := by
    simp [knownUsedOn]
  have hunk : unknownMemory 2 (knownUsedOn
      [(0, [(⟨100, 2, some ⟨"a1", "app"⟩⟩ : KnownProc)])] 0) = 0 := by
    rw [hknown]
    simp [unknownMemory]
  simp only [calculate_inference_profiles, processKnownPhase, List.foldl_cons,
    List.foldl_nil, updateProfileIfPresent, List.map_nil, deviceCycleStep]
  simp [hunk, storeFind]

/-- Witness for C8 with one unresolved candidate and 5 bytes unknown. -/
theorem C8_profile_creation_witness :
    (⟨"b8", "ollama"⟩ : Container) ∈ [(⟨"b8", "ollama"⟩ : Container)] ∧
    ((processKnownPhase [] 0 []).2).contains "b8" = false ∧
    ((0 : Nat), (5 : ℚ)) ∈ [((0 : Nat), (5 : ℚ))] ∧
    0 < unknownMemory (5 : ℚ) (knownUsedOn [] 0) ∧
    (storeFind (calculate_inference_profiles [] [(0, 5)] [] [⟨"b8", "ollama"⟩] 0)
      "b8").isSome = true :=
  ⟨by simp, by decide, by simp,
   by simp [unknownMemory, knownUsedOn],
   C8_profile_creation [] [(0, 5)] [] [⟨"b8", "ollama"⟩] 0 ⟨"b8", "ollama"⟩ (0, 5)
     (by simp) (by decide) (by simp) (by simp [unknownMemory, knownUsedOn])⟩


end AURA
